import Mathlib

/-!
Shallow embedding of the drekar-launch multi-process supervisor
(src/drekar_launch.py) for checking its natural-language specification.

Python dictionaries are modelled as insertion-ordered association lists
(Python 3.7+ dicts preserve insertion order; `del` keeps the order of the
remaining keys).  Observable side effects (soft-stop signals, window
messages, console control events, state-change notifications) are
modelled as explicit event lists returned next to the new state.
-/

/-- Process states, mirroring the `ProcessState` enum (based on MS Windows
service states). -/
inductive ProcessState
  | STOPPED
  | START_PENDING
  | STOP_PENDING
  | RUNNING
  | CONTINUE_PENDING
  | PAUSE_PENDING
  | PAUSED
deriving DecidableEq

/-- Signals a child supervisor forwards to its OS process handle
(`DrekarSubprocessImpl.send_term` / `.kill`). -/
inductive SigEvent
  | softStop (attempt : Nat)
  | hardKill
deriving DecidableEq

/-- Mutable state of one `DrekarProcess` child supervisor.
`process` is `some ()` while an OS process handle is held (`self._process`
is not `None`), `term_attempts` counts soft-stop attempts
(`self._term_attempts`), `exit_status` is the last observed child exit
status (initialized to `-1` in `__init__`). -/
structure DrekarProcess where
  keep_going : Bool
  process : Option Unit
  term_attempts : Nat
  exit_status : Int
deriving DecidableEq

/-- `DrekarProcess.__init__`: `_keep_going = True`, `_process = None`,
`_term_attempts = 0`, `exit_status = -1`. -/
def initProcess : DrekarProcess :=
  { keep_going := true, process := none, term_attempts := 0, exit_status := -1 }

/-- `DrekarProcess.stopped`: true when no process handle is held
(`self._process == None`). -/
def DrekarProcess.stopped (p : DrekarProcess) : Bool :=
  p.process == none

/-- `DrekarProcess.close`: sets `_keep_going = False`; if a process handle
is held, forwards `send_term(self._term_attempts)` and then increments
`_term_attempts`.  Returns the new supervisor state and the emitted
signal events. -/
def DrekarProcess.close (p : DrekarProcess) : DrekarProcess × List SigEvent :=
  match p.process with
  | some _ =>
      ({ p with keep_going := false, term_attempts := p.term_attempts + 1 },
       [SigEvent.softStop p.term_attempts])
  | none => ({ p with keep_going := false }, [])

/-- State of the `DrekarCore` group supervisor: the configured task names
(`task_launches` keys, insertion order), the `_closed` flag, and the
`_subprocesses` dict as an insertion-ordered association list. -/
structure DrekarCore where
  task_launches : List String
  closed : Bool
  subprocesses : List (String × DrekarProcess)
deriving DecidableEq

/-- `DrekarCore._do_start`: create a fresh `DrekarProcess` and register it
under the task's name (dict insertion of a new key appends). -/
def DrekarCore.do_start (c : DrekarCore) (name : String) : DrekarCore :=
  { c with subprocesses := c.subprocesses ++ [(name, initProcess)] }

/-- `DrekarCore.start_all`: for every configured task, if no supervisor is
registered under its name, `_do_start` it.  There is no check of the
`_closed` flag in the source. -/
def DrekarCore.start_all (c : DrekarCore) : DrekarCore :=
  c.task_launches.foldl
    (fun acc name =>
      if acc.subprocesses.any (fun np => np.1 == name) then acc
      else acc.do_start name) c

/-- Failure modes of `DrekarCore.start`: the `assert False, "Already
closed"` and the `ArgumentError` for an unknown name. -/
inductive StartError
  | alreadyClosed
  | invalidService
deriving DecidableEq

/-- `DrekarCore.start`: fails if `_closed`, fails if the name is not a
configured task, otherwise `_do_start` when not yet registered. -/
def DrekarCore.start (c : DrekarCore) (name : String) : Except StartError DrekarCore :=
  if c.closed then Except.error StartError.alreadyClosed
  else if c.task_launches.contains name then
    if c.subprocesses.any (fun np => np.1 == name) then Except.ok c
    else Except.ok (c.do_start name)
  else Except.error StartError.invalidService

/-- `DrekarCore.process_state_changed`: when `_closed` and the event is
`STOPPED`, delete the child's entry from `_subprocesses` (if present);
otherwise the map is unchanged. -/
def DrekarCore.process_state_changed (c : DrekarCore) (process_name : String)
    (state : ProcessState) : DrekarCore :=
  if c.closed then
    if state = ProcessState.STOPPED then
      { c with subprocesses := c.subprocesses.filter (fun np => np.1 != process_name) }
    else c
  else c

/-- Observable actions of `DrekarCore.stop_all`, in program order: the
write of the `_closed` flag and each `p.close()` call. -/
inductive CoreEvent
  | setClosed
  | closeCalled (name : String)
deriving DecidableEq

/-- `DrekarCore.stop_all`: under the lock, return immediately if already
`_closed`; otherwise set `_closed = True` and then call `close()` on
every registered child.  The event trace records program order. -/
def DrekarCore.stop_all (c : DrekarCore) : DrekarCore × List CoreEvent :=
  if c.closed then (c, [])
  else
    ({ c with closed := true,
              subprocesses := c.subprocesses.map (fun np => (np.1, np.2.close.1)) },
     CoreEvent.setClosed :: c.subprocesses.map (fun np => CoreEvent.closeCalled np.1))

/-- `DrekarCore.get_exit_status`: start from 0 and, iterating the children
map in order, overwrite the accumulator with every non-zero child
`exit_status` (last writer wins). -/
def DrekarCore.get_exit_status (c : DrekarCore) : Int :=
  c.subprocesses.foldl
    (fun acc np => if np.2.exit_status ≠ 0 then np.2.exit_status else acc) 0

/-- The fold in `get_exit_status` computes the last non-zero exit status in
iteration order, or the initial accumulator when none is non-zero. -/
theorem exit_fold_eq_getLast (l : List (String × DrekarProcess)) (a : Int) :
    l.foldl (fun acc np => if np.2.exit_status ≠ 0 then np.2.exit_status else acc) a =
      match (l.filter (fun np => np.2.exit_status ≠ 0)).getLast? with
      | some q => q.2.exit_status
      | none => a := by
  induction l generalizing a with
  | nil => rfl
  | cons x l ih =>
      rcases eq_or_ne x.2.exit_status 0 with hx | hx
      · simp only [List.foldl_cons, List.filter_cons, hx, ne_eq, not_true_eq_false,
          decide_False, if_false, ite_false, Bool.false_eq_true]
        exact ih a
      · simp only [List.foldl_cons, List.filter_cons, ne_eq, hx, not_false_iff,
          decide_True, if_true, ite_true]
        rw [ih]
        cases hlast : (l.filter (fun np => decide ¬np.2.exit_status = 0)).getLast? with
        | some q =>
            have hne : l.filter (fun np => decide ¬np.2.exit_status = 0) ≠ [] := by
              intro hnil
              rw [hnil] at hlast
              exact Option.noConfusion hlast
            obtain ⟨b, t, hbt⟩ := List.exists_cons_of_ne_nil hne
            rw [hbt] at hlast ⊢
            rw [List.getLast?_cons_cons, hlast]
        | none =>
            have hnil : l.filter (fun np => decide ¬np.2.exit_status = 0) = [] :=
              List.getLast?_eq_none_iff.mp hlast
            rw [hnil]
            simp [List.getLast?]

/-- Claim C1: `DrekarCore.get_exit_status` returns 0 iff every registered
child's last recorded exit status is 0; otherwise it returns the last
observed non-zero child exit status in the iteration order of the
children map (last writer wins). -/
theorem get_exit_status_aggregate (c : DrekarCore) :
    (c.get_exit_status = 0 ↔ ∀ np ∈ c.subprocesses, np.2.exit_status = 0) ∧
    (∀ q, (c.subprocesses.filter (fun np => decide ¬np.2.exit_status = 0)).getLast? = some q →
      c.get_exit_status = q.2.exit_status) := by
  have hfold := exit_fold_eq_getLast c.subprocesses 0
  constructor
  · rw [DrekarCore.get_exit_status, hfold]
    cases hlast : (c.subprocesses.filter (fun np => decide ¬np.2.exit_status = 0)).getLast? with
    | some q =>
        have hqmem : q ∈ c.subprocesses.filter (fun np => decide ¬np.2.exit_status = 0) := by
          have hq : q ∈ (c.subprocesses.filter
              (fun np => decide ¬np.2.exit_status = 0)).getLast? := by
            rw [hlast]; rfl
          obtain ⟨hne, hq⟩ := List.mem_getLast?_eq_getLast hq
          rw [hq]
          exact List.getLast_mem hne
        have hq0 : ¬q.2.exit_status = 0 := by
          have := List.of_mem_filter hqmem
          simpa using this
        constructor
        · intro h; exact absurd h hq0
        · intro hall
          exact absurd (hall q (List.mem_of_mem_filter hqmem)) hq0
    | none =>
        have hnil := List.getLast?_eq_none_iff.mp hlast
        constructor
        · intro _ np hmem
          by_contra hnp
          have : np ∈ c.subprocesses.filter (fun np => decide ¬np.2.exit_status = 0) :=
            List.mem_filter.mpr ⟨hmem, by simpa using hnp⟩
          rw [hnil] at this
          cases this
        · intro _; rfl
  · intro q hq
    rw [DrekarCore.get_exit_status, hfold, hq]

/-- Witness for C1 at a concrete group: two children with statuses 3 and 5;
the aggregate is the last non-zero status, 5. -/
theorem get_exit_status_aggregate_witness :
    (DrekarCore.mk ["x", "y"] false
      [("x", ⟨true, none, 0, 3⟩), ("y", ⟨true, none, 0, 5⟩)]).get_exit_status = 5 :=
  (get_exit_status_aggregate _).2 ("y", ⟨true, none, 0, 5⟩) (by decide)

/-- Claim C2: after `stop_all` has set the closed flag, processing a
child's STOPPED event removes that child from the children map, so the
removed child is excluded from the aggregation: the resulting
`get_exit_status` is the same for any two groups that agree outside that
child, whatever exit status the deregistered child had recorded. -/
theorem process_state_changed_shutdown (c₁ c₂ : DrekarCore) (name : String)
    (h₁ : c₁.closed = true) (h₂ : c₂.closed = true)
    (h : c₁.subprocesses.filter (fun np => np.1 != name) =
         c₂.subprocesses.filter (fun np => np.1 != name)) :
    (∀ np ∈ (c₁.process_state_changed name ProcessState.STOPPED).subprocesses, np.1 ≠ name) ∧
    (c₁.process_state_changed name ProcessState.STOPPED).get_exit_status =
      (c₂.process_state_changed name ProcessState.STOPPED).get_exit_status := by
  unfold DrekarCore.process_state_changed
  rw [h₁, h₂]
  simp only [if_true, reduceIte]
  constructor
  · intro np hmem
    have := List.of_mem_filter hmem
    simpa using this
  · unfold DrekarCore.get_exit_status
    simp only
    rw [h]

/-- Witness for C2: a closed group where child "x" recorded status 7
versus one where it recorded 9; after its STOPPED event is processed
during shutdown, the aggregate exit status is identical and "x" is gone. -/
theorem process_state_changed_shutdown_witness :
    (∀ np ∈ ((DrekarCore.mk ["x", "y"] true
        [("x", ⟨false, none, 1, 7⟩), ("y", ⟨false, none, 1, 0⟩)]).process_state_changed
        "x" ProcessState.STOPPED).subprocesses, np.1 ≠ "x") ∧
    ((DrekarCore.mk ["x", "y"] true
        [("x", ⟨false, none, 1, 7⟩), ("y", ⟨false, none, 1, 0⟩)]).process_state_changed
        "x" ProcessState.STOPPED).get_exit_status =
      ((DrekarCore.mk ["x", "y"] true
        [("x", ⟨false, none, 1, 9⟩), ("y", ⟨false, none, 1, 0⟩)]).process_state_changed
        "x" ProcessState.STOPPED).get_exit_status :=
  process_state_changed_shutdown _ _ "x" rfl rfl (by decide)

/-- Claim C8: `stop_all` sets the closed flag, and in its action trace the
flag write precedes every child `close()` call; it is idempotent: once
the group is closed a further `stop_all` returns with no state change and
no `close()` calls. -/
theorem stop_all_spec (c : DrekarCore) :
    c.stop_all.1.closed = true ∧
    (c.closed = false →
      c.stop_all.2.head? = some CoreEvent.setClosed ∧
      ∀ np ∈ c.subprocesses, CoreEvent.closeCalled np.1 ∈ c.stop_all.2.tail) ∧
    c.stop_all.1.stop_all = (c.stop_all.1, []) ∧
    (c.closed = true → c.stop_all = (c, [])) := by
  by_cases hc : c.closed = true
  · refine ⟨by simp [DrekarCore.stop_all, hc], ?_, ?_, ?_⟩
    · intro hfalse; rw [hc] at hfalse; cases hfalse
    · simp [DrekarCore.stop_all, hc]
    · intro _; simp [DrekarCore.stop_all, hc]
  · have hc' : c.closed = false := by simpa using hc
    refine ⟨by simp [DrekarCore.stop_all, hc'], ?_, ?_, ?_⟩
    · intro _
      constructor
      · simp [DrekarCore.stop_all, hc']
      · intro np hmem
        simp only [DrekarCore.stop_all, hc', Bool.false_eq_true, if_false, List.tail_cons]
        exact List.mem_map_of_mem _ hmem
    · simp [DrekarCore.stop_all, hc']
    · intro h; rw [h] at hc'; cases hc'

/-- Witness for C8 at a concrete open group with one child: the trace
starts with the closed-flag write, the child's `close()` follows, and a
second `stop_all` is a no-op. -/
theorem stop_all_spec_witness :
    (DrekarCore.mk ["x"] false [("x", ⟨true, some (), 0, -1⟩)]).stop_all.2.head? =
        some CoreEvent.setClosed ∧
    CoreEvent.closeCalled "x" ∈
        (DrekarCore.mk ["x"] false [("x", ⟨true, some (), 0, -1⟩)]).stop_all.2.tail ∧
    (DrekarCore.mk ["x"] false
        [("x", ⟨true, some (), 0, -1⟩)]).stop_all.1.stop_all =
      ((DrekarCore.mk ["x"] false [("x", ⟨true, some (), 0, -1⟩)]).stop_all.1, []) :=
  ⟨((stop_all_spec _).2.1 rfl).1,
   ((stop_all_spec _).2.1 rfl).2 ("x", ⟨true, some (), 0, -1⟩) (by decide),
   (stop_all_spec _).2.2.1⟩

/-- Keys already registered stay registered across `start_all`'s fold, and
every task name visited by the fold ends up registered. -/
theorem start_all_fold_registers (l : List String) :
    ∀ (acc : DrekarCore) (n : String),
      (n ∈ l ∨ acc.subprocesses.any (fun np => np.1 == n) = true) →
      ((l.foldl (fun acc name =>
          if acc.subprocesses.any (fun np => np.1 == name) then acc
          else acc.do_start name) acc).subprocesses.any (fun np => np.1 == n)) = true := by
  induction l with
  | nil =>
      intro acc n h
      rcases h with h | h
      · cases h
      · exact h
  | cons m l ih =>
      intro acc n h
      simp only [List.foldl_cons]
      apply ih
      rcases h with h | h
      · rcases List.mem_cons.mp h with rfl | hmem
        · right
          by_cases hin : acc.subprocesses.any (fun np => np.1 == n) = true
          · rw [if_pos hin]; exact hin
          · rw [if_neg hin]
            simp [DrekarCore.do_start, List.any_append]
        · left; exact hmem
      · right
        by_cases hin : acc.subprocesses.any (fun np => np.1 == m) = true
        · rw [if_pos hin]; exact h
        · rw [if_neg hin]
          simp [DrekarCore.do_start, List.any_append]
          left
          simpa using h

/-- Claim C6 counterexample: a closed group with task "a" and an empty
children map; `start_all` nevertheless registers a new child supervisor
for "a", because `start_all` performs no check of the closed flag. -/
theorem start_all_after_closed_cex :
    (DrekarCore.mk ["a"] true []).closed = true ∧
    (DrekarCore.mk ["a"] true []).start_all.subprocesses = [("a", initProcess)] := by
  constructor
  · rfl
  · rfl

/-- Claim C6 as amended: `start(name)` fails whenever the group is closed,
but `start_all` does not consult the closed flag: it registers a child
supervisor for every configured task name missing from the children map,
even after `stop_all` has set the closed flag. -/
theorem start_closed_amended :
    (∀ (c : DrekarCore) (name : String), c.closed = true →
      c.start name = Except.error StartError.alreadyClosed) ∧
    (∀ (c : DrekarCore) (name : String), name ∈ c.task_launches →
      (c.start_all.subprocesses.any (fun np => np.1 == name)) = true) := by
  constructor
  · intro c name h
    simp [DrekarCore.start, h]
  · intro c name h
    exact start_all_fold_registers c.task_launches c name (Or.inl h)

/-- Witness for the amended C6 at a concrete closed group: `start "a"`
errors out, while `start_all` registers "a" anyway. -/
theorem start_closed_amended_witness :
    (DrekarCore.mk ["a"] true []).start "a" = Except.error StartError.alreadyClosed ∧
    ((DrekarCore.mk ["a"] true []).start_all.subprocesses.any
      (fun np => np.1 == "a")) = true :=
  ⟨start_closed_amended.1 _ "a" rfl, start_closed_amended.2 _ "a" (by decide)⟩

/-- Claim C7 counterexample: `close()` on a supervisor that currently holds
no process handle (`self._process` is `None`, e.g. a never-spawned or
already-exited child) forwards no soft-stop at all and leaves the attempt
counter untouched, refuting that every `close()` call forwards
`soft_stop` and increments the counter. -/
theorem close_no_handle_cex :
    (DrekarProcess.close ⟨true, none, 0, -1⟩).2 = [] ∧
    (DrekarProcess.close ⟨true, none, 0, -1⟩).1.term_attempts = 0 := by
  constructor
  · rfl
  · rfl

/-- Claim C7 as amended: every `close()` sets the keep-going flag false and
never decreases the attempt counter; when a process handle is held it
forwards `soft_stop` with the current attempt count and then increments
the counter, so successive `close()` calls on a live child forward
strictly increasing attempt counts (monotone escalation). -/
theorem close_escalation (p : DrekarProcess) :
    p.close.1.keep_going = false ∧
    p.term_attempts ≤ p.close.1.term_attempts ∧
    (∀ u, p.process = some u →
      p.close.2 = [SigEvent.softStop p.term_attempts] ∧
      p.close.1.term_attempts = p.term_attempts + 1 ∧
      p.close.1.close.2 = [SigEvent.softStop (p.term_attempts + 1)]) := by
  cases hp : p.process with
  | none =>
      refine ⟨?_, ?_, ?_⟩
      · simp [DrekarProcess.close, hp]
      · simp [DrekarProcess.close, hp]
      · intro u hu; exact Option.noConfusion hu
  | some u =>
      refine ⟨?_, ?_, ?_⟩
      · simp [DrekarProcess.close, hp]
      · simp [DrekarProcess.close, hp]
      · intro v hv
        refine ⟨?_, ?_, ?_⟩
        · simp [DrekarProcess.close, hp]
        · simp [DrekarProcess.close, hp]
        · simp [DrekarProcess.close, hp]

/-- Witness for the amended C7 on a live child with attempt counter 0: the
first `close()` forwards attempt 0 and the second forwards attempt 1. -/
theorem close_escalation_witness :
    (DrekarProcess.close ⟨true, some (), 0, -1⟩).1.keep_going = false ∧
    (DrekarProcess.close ⟨true, some (), 0, -1⟩).2 = [SigEvent.softStop 0] ∧
    (DrekarProcess.close ⟨true, some (), 0, -1⟩).1.close.2 = [SigEvent.softStop 1] :=
  ⟨(close_escalation ⟨true, some (), 0, -1⟩).1,
   ((close_escalation ⟨true, some (), 0, -1⟩).2.2 () rfl).1,
   ((close_escalation ⟨true, some (), 0, -1⟩).2.2 () rfl).2.2⟩

/-- Environment of one life (one spawn attempt) of `DrekarProcess.run`:
whether `create_subprocess_exec` succeeds, the exit status `wait()`
observes when it does, and the value of `_keep_going` at the restart
check after the life (a concurrent `close()` may have cleared it). -/
structure LifeEnv where
  spawnOk : Bool
  exitStatus : Int
  keepGoingAfterLife : Bool
deriving DecidableEq

/-- State events one life of `DrekarProcess.run` emits via
`process_state_changed`: the try-block emits START_PENDING, then (after a
successful spawn) RUNNING, then STOPPED after `wait()`; if spawning
raises, the except-block emits STOPPED directly, skipping RUNNING. -/
def lifeTrace (e : LifeEnv) : List ProcessState :=
  if e.spawnOk then
    [ProcessState.START_PENDING, ProcessState.RUNNING, ProcessState.STOPPED]
  else
    [ProcessState.START_PENDING, ProcessState.STOPPED]

/-- `self.exit_status` after one life: updated from
`self._process.get_exit_status()` only when the spawn succeeded; on a
spawn failure the except-block leaves it unchanged. -/
def lifeExit (cur : Int) (e : LifeEnv) : Int :=
  if e.spawnOk then e.exitStatus else cur

/-- The `while self._keep_going` loop of `DrekarProcess.run`: one life per
iteration, then break on `quit_on_terminate`, break on `not restart`,
break when `close()` cleared `_keep_going`, else loop.  The (finite)
schedule `lives` supplies each iteration's environment; an exhausted
schedule models `_keep_going` found false at the loop head.  Returns the
emitted state events and the final `exit_status`. -/
def runLoop (quitOnTerm restart : Bool) : Int → List LifeEnv → List ProcessState × Int
  | exitSt, [] => ([], exitSt)
  | exitSt, e :: rest =>
      let tr := lifeTrace e
      let st := lifeExit exitSt e
      if quitOnTerm then (tr, st)
      else if !restart then (tr, st)
      else if e.keepGoingAfterLife then
        let r := runLoop quitOnTerm restart st rest
        (tr ++ r.1, r.2)
      else (tr, st)

/-- `DrekarProcess.run`: when the task has a positive start delay, the
coroutine first waits on the group exit event (bounded by the delay) and
returns immediately — before the first spawn, emitting no state events,
with `exit_status` still `-1` — if `_keep_going` is already false at that
point; otherwise it enters the spawn loop. -/
def DrekarProcess.run (startDelayPos keepGoingAfterDelay quitOnTerm restart : Bool)
    (lives : List LifeEnv) : List ProcessState × Int :=
  if startDelayPos && !keepGoingAfterDelay then ([], -1)
  else runLoop quitOnTerm restart (-1) lives

/-- Event sequences that decompose into per-life chunks: each life
contributes `START_PENDING, RUNNING, STOPPED` (successful spawn) or
`START_PENDING, STOPPED` (failed spawn). -/
inductive LifeChunks : List ProcessState → Prop
  | nil : LifeChunks []
  | ok (rest : List ProcessState) : LifeChunks rest →
      LifeChunks (ProcessState.START_PENDING :: ProcessState.RUNNING ::
        ProcessState.STOPPED :: rest)
  | fail (rest : List ProcessState) : LifeChunks rest →
      LifeChunks (ProcessState.START_PENDING :: ProcessState.STOPPED :: rest)

/-- Claim C4 counterexample: in the life where spawning fails, the emitted
events are `START_PENDING, STOPPED` — RUNNING is skipped — and that
sequence is not a prefix of `START_PENDING, RUNNING, STOPPED`. -/
theorem life_spawn_failure_cex :
    lifeTrace ⟨false, 0, true⟩ = [ProcessState.START_PENDING, ProcessState.STOPPED] ∧
    (lifeTrace ⟨false, 0, true⟩).isPrefixOf
      [ProcessState.START_PENDING, ProcessState.RUNNING, ProcessState.STOPPED] = false := by
  constructor
  · rfl
  · rfl

/-- Claim C4 as amended: within one life the emitted state events are
`START_PENDING, RUNNING, STOPPED` when the spawn succeeds and
`START_PENDING, STOPPED` when the spawn fails (RUNNING is skipped exactly
in a spawn-failure life), and every trace of `DrekarProcess.run` is a
concatenation of such per-life chunks. -/
theorem run_trace_life_chunks :
    (∀ e : LifeEnv, e.spawnOk = true → lifeTrace e =
      [ProcessState.START_PENDING, ProcessState.RUNNING, ProcessState.STOPPED]) ∧
    (∀ e : LifeEnv, e.spawnOk = false → lifeTrace e =
      [ProcessState.START_PENDING, ProcessState.STOPPED]) ∧
    (∀ (sd kg q r : Bool) (lives : List LifeEnv),
      LifeChunks (DrekarProcess.run sd kg q r lives).1) := by
  have hloop : ∀ (q r : Bool) (lives : List LifeEnv) (st : Int),
      LifeChunks (runLoop q r st lives).1 := by
    intro q r lives
    induction lives with
    | nil => intro st; exact LifeChunks.nil
    | cons e rest ih =>
        intro st
        have hchunk : ∀ tail : List ProcessState, LifeChunks tail →
            LifeChunks (lifeTrace e ++ tail) := by
          intro tail htail
          cases he : e.spawnOk with
          | true => simpa [lifeTrace, he] using LifeChunks.ok tail htail
          | false => simpa [lifeTrace, he] using LifeChunks.fail tail htail
        have hone : LifeChunks (lifeTrace e) := by
          simpa using hchunk [] LifeChunks.nil
        simp only [runLoop]
        by_cases hq : q = true
        · simpa [hq] using hone
        · by_cases hr : r = true
          · by_cases hk : e.keepGoingAfterLife = true
            · simpa [hq, hr, hk] using hchunk _ (ih (lifeExit st e))
            · simp only [hq, hr, hk]
              simpa [Bool.eq_false_iff.mpr hq] using hone
          · have hr' : r = false := by simpa using hr
            simpa [hq, hr'] using hone
  refine ⟨?_, ?_, ?_⟩
  · intro e he; simp [lifeTrace, he]
  · intro e he; simp [lifeTrace, he]
  · intro sd kg q r lives
    by_cases h : (sd && !kg) = true
    · simp [DrekarProcess.run, h]
      exact LifeChunks.nil
    · simp only [DrekarProcess.run, h, Bool.false_eq_true, if_false]
      exact hloop q r lives (-1)

/-- Witness for the amended C4: concrete successful and failing lives, and
a concrete two-life run whose trace decomposes into life chunks. -/
theorem run_trace_life_chunks_witness :
    lifeTrace ⟨true, 0, true⟩ =
      [ProcessState.START_PENDING, ProcessState.RUNNING, ProcessState.STOPPED] ∧
    lifeTrace ⟨false, 0, true⟩ =
      [ProcessState.START_PENDING, ProcessState.STOPPED] ∧
    LifeChunks (DrekarProcess.run false true false true
      [⟨false, 0, true⟩, ⟨true, 7, true⟩]).1 :=
  ⟨run_trace_life_chunks.1 ⟨true, 0, true⟩ rfl,
   run_trace_life_chunks.2.1 ⟨false, 0, true⟩ rfl,
   run_trace_life_chunks.2.2 false true false true [⟨false, 0, true⟩, ⟨true, 7, true⟩]⟩

/-- Claim C10: a child whose group exit trigger fired during its start
delay (so `_keep_going` is already false when the delay wait returns)
never spawns: `run` returns before the first spawn with no state events
and `exit_status` still `-1`; since no STOPPED event is emitted the child
is never deregistered, and a group that registers such a child while
every other child recorded exit status 0 aggregates to `-1`. -/
theorem delay_abort_exit_status (q r : Bool) (lives : List LifeEnv)
    (c : DrekarCore) (name : String) (p : DrekarProcess)
    (hmem : (name, p) ∈ c.subprocesses) (hp : p.exit_status = -1)
    (hothers : ∀ np ∈ c.subprocesses, np.2.exit_status = 0 ∨ np.2.exit_status = -1) :
    DrekarProcess.run true false q r lives = ([], -1) ∧
    c.get_exit_status = -1 := by
  constructor
  · rfl
  · have hfold := exit_fold_eq_getLast c.subprocesses 0
    rw [DrekarCore.get_exit_status, hfold]
    cases hlast : (c.subprocesses.filter (fun np => decide ¬np.2.exit_status = 0)).getLast? with
    | some qq =>
        have hqmem : qq ∈ c.subprocesses.filter (fun np => decide ¬np.2.exit_status = 0) := by
          have hq : qq ∈ (c.subprocesses.filter
              (fun np => decide ¬np.2.exit_status = 0)).getLast? := by
            rw [hlast]; rfl
          obtain ⟨hne, hq⟩ := List.mem_getLast?_eq_getLast hq
          rw [hq]
          exact List.getLast_mem hne
        have hq0 : ¬qq.2.exit_status = 0 := by
          have := List.of_mem_filter hqmem
          simpa using this
        rcases hothers qq (List.mem_of_mem_filter hqmem) with h0 | hm1
        · exact absurd h0 hq0
        · exact hm1
    | none =>
        have hnil := List.getLast?_eq_none_iff.mp hlast
        have : (name, p) ∈ c.subprocesses.filter (fun np => decide ¬np.2.exit_status = 0) := by
          refine List.mem_filter.mpr ⟨hmem, ?_⟩
          simp [hp]
        rw [hnil] at this
        cases this

/-- Witness for C10: a concrete group whose child "late" kept the initial
status -1 after a delay-abort while child "ok" exited with 0; the
launcher's aggregate exit status is -1. -/
theorem delay_abort_exit_status_witness :
    DrekarProcess.run true false false true [] = ([], -1) ∧
    (DrekarCore.mk ["ok", "late"] true
      [("ok", ⟨false, none, 1, 0⟩), ("late", ⟨false, none, 1, -1⟩)]).get_exit_status = -1 :=
  delay_abort_exit_status false true []
    (DrekarCore.mk ["ok", "late"] true
      [("ok", ⟨false, none, 1, 0⟩), ("late", ⟨false, none, 1, -1⟩)])
    "late" ⟨false, none, 1, -1⟩ (by decide) rfl (by decide)

/-- A top-level window as `EnumWindows` reports it: handle, owning process
id, and whether `GetParent` returns a non-null parent. -/
structure Win32Window where
  hwnd : Nat
  pid : Nat
  hasParent : Bool
deriving DecidableEq

/-- Snapshot of the win32 state `send_term` interacts with: the process
ids in the child's job object (in `QueryInformationJobObject` order), the
system's top-level windows, and the message-only windows (handle, owning
pid). -/
structure Win32SysState where
  jobPids : List Nat
  topWindows : List Win32Window
  msgWindows : List (Nat × Nat)
deriving DecidableEq

/-- Win32 signaling actions: `PostMessageW(hwnd, WM_CLOSE, 0, 0)` and
`GenerateConsoleCtrlEvent(0, pid)`. -/
inductive W32Event
  | postWMClose (hwnd : Nat)
  | ctrlC (pid : Nat)
deriving DecidableEq

/-- `subprocess_impl_win32._win32_find_main_hwnds`: enumerate top-level
windows owned by the FIRST pid of the list (the source reads `pids[0]`),
then drop windows that have a parent. -/
def find_main_hwnds (sys : Win32SysState) (pids : List Nat) : List Nat :=
  ((sys.topWindows.filter (fun w => w.pid == pids.headD 0)).filter
    (fun w => !w.hasParent)).map (fun w => w.hwnd)

/-- `subprocess_impl_win32._win32_find_message_hwnds`: walk the
message-only windows and keep those whose owning pid is in the list. -/
def find_message_hwnds (sys : Win32SysState) (pids : List Nat) : List Nat :=
  (sys.msgWindows.filter (fun w => pids.contains w.2)).map (fun w => w.1)

/-- `subprocess_impl_win32._win32_send_wm_close_hwnd_message`: check for
main (top-level) windows first; if there are none, fall back to the
message-only windows; post WM_CLOSE to each selected handle. -/
def send_wm_close_hwnd_message (sys : Win32SysState) (pids : List Nat) : List W32Event :=
  let hwnds := find_main_hwnds sys pids
  let hwnds := if hwnds = [] then find_message_hwnds sys pids else hwnds
  hwnds.map W32Event.postWMClose

/-- `subprocess_impl_win32._win32_send_ctrl_c_event` on a pid list:
`GenerateConsoleCtrlEvent(0, p)` for each pid. -/
def send_ctrl_c_event (pids : List Nat) : List W32Event :=
  pids.map W32Event.ctrlC

/-- `subprocess_impl_win32.win32_send_pid_wm_close`: posts the WM_CLOSE
messages and then ALSO generates a console control event for every pid. -/
def win32_send_pid_wm_close (sys : Win32SysState) (pids : List Nat) : List W32Event :=
  send_wm_close_hwnd_message sys pids ++ send_ctrl_c_event pids

/-- `subprocess_impl_win32.win32_send_job_wm_close`: enumerate the pids of
the job object and forward them to `win32_send_pid_wm_close`. -/
def win32_send_job_wm_close (sys : Win32SysState) : List W32Event :=
  win32_send_pid_wm_close sys sys.jobPids

/-- `DrekarSubprocessImpl.send_term` on win32: for `attempt_count > 3`
generate a console control event for the child's pid; otherwise go
through `win32_send_job_wm_close`. -/
def send_term (sys : Win32SysState) (pid : Nat) (attempt_count : Nat) : List W32Event :=
  if attempt_count > 3 then [W32Event.ctrlC pid]
  else win32_send_job_wm_close sys

/-- Claim C5 counterexample: a job with one process (pid 5) owning one
top-level non-child window; on attempt 0 (≤ 3) `send_term` nevertheless
generates a console control event for pid 5 in addition to posting
WM_CLOSE, because `win32_send_pid_wm_close` unconditionally calls
`_win32_send_ctrl_c_event` after `_win32_send_wm_close_hwnd_message`. -/
theorem send_term_ctrl_c_cex :
    send_term ⟨[5], [⟨100, 5, false⟩], []⟩ 5 0 =
      [W32Event.postWMClose 100, W32Event.ctrlC 5] ∧
    W32Event.ctrlC 5 ∈ send_term ⟨[5], [⟨100, 5, false⟩], []⟩ 5 0 := by
  constructor
  · rfl
  · rw [(by rfl : send_term ⟨[5], [⟨100, 5, false⟩], []⟩ 5 0 =
      [W32Event.postWMClose 100, W32Event.ctrlC 5])]
    simp

/-- Claim C5 as amended: for `attempt ≤ 3`, `send_term` posts the
window-close message to the top-level non-child windows of the first
process of the job if any exist, else to the message-only windows owned
by the job's processes, and then also generates a console control event
for every process in the job; only for `attempt > 3` is the signaling
just a console control event addressed to the child's pid. -/
theorem send_term_spec (sys : Win32SysState) (pid attempt : Nat) :
    (attempt > 3 → send_term sys pid attempt = [W32Event.ctrlC pid]) ∧
    (attempt ≤ 3 →
      send_term sys pid attempt =
        send_wm_close_hwnd_message sys sys.jobPids ++ sys.jobPids.map W32Event.ctrlC ∧
      (∀ p ∈ sys.jobPids, W32Event.ctrlC p ∈ send_term sys pid attempt) ∧
      (find_main_hwnds sys sys.jobPids ≠ [] →
        ∀ h ∈ find_main_hwnds sys sys.jobPids,
          W32Event.postWMClose h ∈ send_term sys pid attempt) ∧
      (find_main_hwnds sys sys.jobPids = [] →
        ∀ h ∈ find_message_hwnds sys sys.jobPids,
          W32Event.postWMClose h ∈ send_term sys pid attempt)) := by
  constructor
  · intro h
    simp [send_term, h]
  · intro h
    have h3 : ¬attempt > 3 := by omega
    have heq : send_term sys pid attempt =
        send_wm_close_hwnd_message sys sys.jobPids ++ sys.jobPids.map W32Event.ctrlC := by
      simp [send_term, h3, win32_send_job_wm_close, win32_send_pid_wm_close,
        send_ctrl_c_event]
    refine ⟨heq, ?_, ?_, ?_⟩
    · intro p hp
      rw [heq]
      exact List.mem_append_right _ (List.mem_map_of_mem _ hp)
    · intro hne hw hwmem
      rw [heq]
      refine List.mem_append_left _ ?_
      simp only [send_wm_close_hwnd_message, if_neg hne]
      exact List.mem_map_of_mem _ hwmem
    · intro hnil hw hwmem
      rw [heq]
      refine List.mem_append_left _ ?_
      simp only [send_wm_close_hwnd_message, if_pos hnil]
      exact List.mem_map_of_mem _ hwmem

/-- Witness for the amended C5 at a concrete job state: attempt 4 sends
only the console control event, attempt 0 also reaches every job pid
with a console control event and posts WM_CLOSE to the top-level
window. -/
theorem send_term_spec_witness :
    send_term ⟨[5, 6], [⟨100, 5, false⟩], [(200, 6)]⟩ 5 4 = [W32Event.ctrlC 5] ∧
    W32Event.ctrlC 6 ∈ send_term ⟨[5, 6], [⟨100, 5, false⟩], [(200, 6)]⟩ 5 0 ∧
    W32Event.postWMClose 100 ∈ send_term ⟨[5, 6], [⟨100, 5, false⟩], [(200, 6)]⟩ 5 0 :=
  ⟨(send_term_spec ⟨[5, 6], [⟨100, 5, false⟩], [(200, 6)]⟩ 5 4).1 (by decide),
   ((send_term_spec ⟨[5, 6], [⟨100, 5, false⟩], [(200, 6)]⟩ 5 0).2 (by decide)).2.1
     6 (by decide),
   ((send_term_spec ⟨[5, 6], [⟨100, 5, false⟩], [(200, 6)]⟩ 5 0).2 (by decide)).2.2.1
     (by decide) 100 (by decide)⟩

/-- Python `s.split(sep, 1)` on one separator character: `none` when the
separator is absent (the split has length 1), `some (before, after)` when
present (length 2). -/
def breakAt (sep : Char) : List Char → Option (List Char × List Char)
  | [] => none
  | c :: cs =>
      if c = sep then some ([], cs)
      else
        match breakAt sep cs with
        | some kv => some (c :: kv.1, kv.2)
        | none => none

/-- Python `s.strip()`: drop whitespace from both ends. -/
def pyStrip (s : List Char) : List Char :=
  ((s.dropWhile Char.isWhitespace).reverse.dropWhile Char.isWhitespace).reverse

/-- Python dict assignment `d[k] = v`: overwrite an existing key in place,
else append the new binding. -/
def dictInsert (d : List (List Char × List Char)) (k v : List Char) :
    List (List Char × List Char) :=
  if d.any (fun kv => kv.1 == k) then
    d.map (fun kv => if kv.1 = k then (k, v) else kv)
  else d ++ [(k, v)]

/-- One iteration of the env-file read loop in
`parse_task_launch_from_yaml`: strip the line; skip it when blank; when
it starts with `#`, replace it by the text before the first `#` (which is
empty); split on the first `=` and record the binding only when the split
yields exactly two parts. -/
def processEnvLine (d : List (List Char × List Char)) (line : List Char) :
    List (List Char × List Char) :=
  let l := pyStrip line
  if l = [] then d
  else
    let l2 := if l.head? = some '#' then (breakAt '#' l).elim l Prod.fst else l
    match breakAt '=' l2 with
    | some kv => dictInsert d kv.1 kv.2
    | none => d

/-- The whole env-file read loop: fold the lines into an initially empty
dict (`env = dict()` before the loop). -/
def parseEnvFile (lines : List (List Char)) : List (List Char × List Char) :=
  lines.foldl processEnvLine []

/-- Environment computation of `parse_task_launch_from_yaml`: start from a
copy of the launcher environment, update it with the task's `environment`
mapping, and — when an `env-file` is declared — discard all of that and
rebuild the dict solely from the file's lines. -/
def computeTaskEnv (launcher_env task_env : List (List Char × List Char))
    (env_file : Option (List (List Char))) : List (List Char × List Char) :=
  let env := task_env.foldl (fun d kv => dictInsert d kv.1 kv.2) launcher_env
  match env_file with
  | some lines => parseEnvFile lines
  | none => env

/-- Claim C9: with an `env-file`, the child environment is built solely
from the file — the result does not depend on the launcher environment or
the task's `environment` mapping — and the file is parsed line by line:
blank lines are dropped, lines whose first non-blank character is `#` are
dropped, a line containing `=` binds the text before the first `=` to the
text after it, and a non-blank non-comment line without `=` is ignored. -/
theorem env_file_sole_source :
    (∀ (le te : List (List Char × List Char)) (lines : List (List Char)),
      computeTaskEnv le te (some lines) = parseEnvFile lines) ∧
    (∀ (d : List (List Char × List Char)) (line : List Char),
      pyStrip line = [] → processEnvLine d line = d) ∧
    (∀ (d : List (List Char × List Char)) (line : List Char),
      (pyStrip line).head? = some '#' → processEnvLine d line = d) ∧
    (∀ (d : List (List Char × List Char)) (line : List Char) (k v : List Char),
      (pyStrip line).head? ≠ some '#' → breakAt '=' (pyStrip line) = some (k, v) →
      processEnvLine d line = dictInsert d k v) ∧
    (∀ (d : List (List Char × List Char)) (line : List Char),
      (pyStrip line).head? ≠ some '#' → breakAt '=' (pyStrip line) = none →
      processEnvLine d line = d) := by
  refine ⟨?_, ?_, ?_, ?_, ?_⟩
  · intro le te lines
    rfl
  · intro d line h
    simp [processEnvLine, h]
  · intro d line h
    cases hl : pyStrip line with
    | nil => simp [processEnvLine, hl]
    | cons c cs =>
        rw [hl] at h
        have hc : c = '#' := by simpa using h
        subst hc
        simp [processEnvLine, hl, breakAt]
  · intro d line k v hhash hbrk
    cases hl : pyStrip line with
    | nil =>
        rw [hl] at hbrk
        cases hbrk
    | cons c cs =>
        rw [hl] at hhash hbrk
        have hne : (c :: cs : List Char) ≠ [] := by simp
        simp only [processEnvLine, hl, if_neg hne, List.head?_cons, hhash, if_neg, hbrk]
        rw [if_neg (by simpa using hhash), hbrk]
  · intro d line hhash hbrk
    cases hl : pyStrip line with
    | nil => simp [processEnvLine, hl]
    | cons c cs =>
        rw [hl] at hhash hbrk
        have hne : (c :: cs : List Char) ≠ [] := by simp
        simp only [processEnvLine, hl]
        rw [if_neg hne, if_neg (by simpa using hhash), hbrk]

/-- Witness for C9 at a concrete file: whatever the launcher and task
environments hold, the file `["# note", "", "A=1", "junk"]` produces
exactly the binding A ↦ 1. -/
theorem env_file_sole_source_witness :
    computeTaskEnv [("HOME".toList, "/root".toList)] [("B".toList, "2".toList)]
        (some ["# note".toList, "".toList, "A=1".toList, "junk".toList]) =
      parseEnvFile ["# note".toList, "".toList, "A=1".toList, "junk".toList] ∧
    processEnvLine [] "   ".toList = [] ∧
    processEnvLine [] "# note".toList = [] ∧
    processEnvLine [] " A=1 ".toList = dictInsert [] "A".toList "1".toList ∧
    processEnvLine [] "junk".toList = [] :=
  ⟨env_file_sole_source.1 _ _ _,
   env_file_sole_source.2.1 [] "   ".toList (by decide),
   env_file_sole_source.2.2.1 [] "# note".toList (by decide),
   env_file_sole_source.2.2.2.1 [] " A=1 ".toList "A".toList "1".toList
     (by decide) (by decide),
   env_file_sole_source.2.2.2.2 [] "junk".toList (by decide) (by decide)⟩

/-- Behavior of one child during shutdown, for `wait_all_stopped`: time is
measured in tenths of a second from the moment the loop is entered (one
tick per `asyncio.sleep(0.1)`); `stopsAt` is the tick at which this
child's `stopped` predicate becomes true, or `none` when the child never
stops on its own. -/
structure ShutdownChild where
  name : String
  stopsAt : Option Nat
deriving DecidableEq

/-- `not p.stopped` at tick `t`. -/
def notStoppedAt (c : ShutdownChild) (t : Nat) : Bool :=
  match c.stopsAt with
  | some s => decide (t < s)
  | none => true

/-- The polling loop of `DrekarCore.wait_all_stopped`, in tenths of a
second: at tick `t` the loop measures `t_diff = t` and breaks when
`t_diff > 15` s (tick 150); otherwise it counts not-stopped children and
breaks when there are none; otherwise it sleeps one tick and, when more
than 1 s has passed since the last resend (`t_diff > t_last_sent_close +
1`), records `t_diff` and calls `close()` on each then-not-stopped child.
Returns the tick at which the loop exits and the resend batches
(recorded `t_diff`, closed children).  The fuel argument makes the
recursion structural; `wait_all_stopped` passes fuel 152, which is never
exhausted because `t` increases by one per iteration and the loop exits
at tick 151 at the latest. -/
def wait_loop (children : List ShutdownChild) :
    Nat → Nat → Nat → Nat × List (Nat × List String)
  | 0, t, _ => (t, [])
  | fuel + 1, t, tLast =>
      if 150 < t then (t, [])
      else if children.filter (fun c => notStoppedAt c t) = [] then (t, [])
      else if tLast + 10 < t then
        ((wait_loop children fuel (t + 1) t).1,
          (t, (children.filter (fun c => notStoppedAt c (t + 1))).map (fun c => c.name)) ::
            (wait_loop children fuel (t + 1) t).2)
      else wait_loop children fuel (t + 1) tLast

/-- `DrekarCore.wait_all_stopped`: run the polling loop; then `kill()`
every child still not stopped; if any were, print the SIGKILL notice and
`time.sleep(2)` (20 ticks).  Returns (total elapsed ticks, resend
batches, names of hard-killed children, whether the notice was
printed). -/
def wait_all_stopped (children : List ShutdownChild) :
    Nat × List (Nat × List String) × List String × Bool :=
  let r := wait_loop children 152 0 0
  let still := children.filter (fun c => notStoppedAt c r.1)
  if still = [] then (r.1, r.2, [], false)
  else (r.1 + 20, r.2, still.map (fun c => c.name), true)

/-- The polling loop never runs past tick 151. -/
theorem wait_loop_le (children : List ShutdownChild) :
    ∀ (fuel t tLast : Nat), t ≤ 151 → (wait_loop children fuel t tLast).1 ≤ 151 := by
  intro fuel
  induction fuel with
  | zero => intro t tLast ht; exact ht
  | succ fuel ih =>
      intro t tLast ht
      simp only [wait_loop]
      by_cases h1 : 150 < t
      · rw [if_pos h1]; exact ht
      · rw [if_neg h1]
        by_cases h2 : children.filter (fun c => notStoppedAt c t) = []
        · rw [if_pos h2]; exact ht
        · rw [if_neg h2]
          by_cases h3 : tLast + 10 < t
          · rw [if_pos h3]
            simpa using ih (t + 1) t (by omega)
          · rw [if_neg h3]
            exact ih (t + 1) tLast (by omega)

/-- The loop's exit tick is at least its entry tick. -/
theorem wait_loop_ge (children : List ShutdownChild) :
    ∀ (fuel t tLast : Nat), t ≤ (wait_loop children fuel t tLast).1 := by
  intro fuel
  induction fuel with
  | zero => intro t tLast; exact Nat.le_refl t
  | succ fuel ih =>
      intro t tLast
      simp only [wait_loop]
      by_cases h1 : 150 < t
      · rw [if_pos h1]
      · rw [if_neg h1]
        by_cases h2 : children.filter (fun c => notStoppedAt c t) = []
        · rw [if_pos h2]
        · rw [if_neg h2]
          by_cases h3 : tLast + 10 < t
          · rw [if_pos h3]
            have := ih (t + 1) t
            simpa using Nat.le_trans (Nat.le_succ t) this
          · rw [if_neg h3]
            exact Nat.le_trans (Nat.le_succ t) (ih (t + 1) tLast)

/-- With sufficient fuel the loop exits exactly when no registered child
is still not-stopped, or at tick 151 (the first measurement with
`t_diff > 15` s). -/
theorem wait_loop_exit (children : List ShutdownChild) :
    ∀ (fuel t tLast : Nat), t ≤ 151 → 151 - t < fuel →
      children.filter (fun c => notStoppedAt c (wait_loop children fuel t tLast).1) = [] ∨
      (wait_loop children fuel t tLast).1 = 151 := by
  intro fuel
  induction fuel with
  | zero => intro t tLast ht hf; omega
  | succ fuel ih =>
      intro t tLast ht hf
      simp only [wait_loop]
      by_cases h1 : 150 < t
      · rw [if_pos h1]
        right
        omega
      · rw [if_neg h1]
        by_cases h2 : children.filter (fun c => notStoppedAt c t) = []
        · rw [if_pos h2]
          left
          exact h2
        · rw [if_neg h2]
          by_cases h3 : tLast + 10 < t
          · rw [if_pos h3]
            simpa using ih (t + 1) t (by omega) (by omega)
          · rw [if_neg h3]
            exact ih (t + 1) tLast (by omega) (by omega)

/-- Resend batches: under the loop's invariant (`t_last_sent_close` is a
multiple of 1.1 s and the current tick is within 1.1 s of it), every
recorded resend happens at a positive multiple of 1.1 s (11 ticks),
strictly before the loop exits, and closes exactly the children not
stopped one tick after the measurement (the `close()` calls happen after
the sleep). -/
theorem wait_loop_batches (children : List ShutdownChild) :
    ∀ (fuel t tLast : Nat), tLast % 11 = 0 → tLast ≤ t → t ≤ tLast + 11 →
      ∀ b ∈ (wait_loop children fuel t tLast).2,
        b.1 % 11 = 0 ∧ 0 < b.1 ∧ b.1 < (wait_loop children fuel t tLast).1 ∧
        b.2 = (children.filter (fun c => notStoppedAt c (b.1 + 1))).map (fun c => c.name) := by
  intro fuel
  induction fuel with
  | zero =>
      intro t tLast _ _ _ b hb
      cases hb
  | succ fuel ih =>
      intro t tLast hmod hle hub b hb
      simp only [wait_loop] at hb ⊢
      by_cases h1 : 150 < t
      · rw [if_pos h1] at hb
        cases hb
      · rw [if_neg h1] at hb ⊢
        by_cases h2 : children.filter (fun c => notStoppedAt c t) = []
        · rw [if_pos h2] at hb
          cases hb
        · rw [if_neg h2] at hb ⊢
          by_cases h3 : tLast + 10 < t
          · rw [if_pos h3] at hb ⊢
            simp only []
            rcases List.mem_cons.mp hb with hbeq | hbtail
            · subst hbeq
              refine ⟨by omega, by omega, ?_, rfl⟩
              have := wait_loop_ge children fuel (t + 1) t
              omega
            · have := ih (t + 1) t (by omega) (by omega) (by omega) b hbtail
              simpa using this
          · rw [if_neg h3] at hb ⊢
            exact ih (t + 1) tLast (by omega) (by omega) (by omega) b hb

/-- Claim C3 counterexample: with a single child that never stops, the
idealized run of `wait_all_stopped` takes 171 ticks — 17.1 s — from the
moment the loop is entered: the loop only breaks at the first measurement
with `t_diff > 15` (tick 151, since tick 150 satisfies `15.0 > 15 =
false`), and the post-SIGKILL sleep adds 2 s.  17.1 s exceeds the claimed
17 s budget. -/
theorem wait_all_stopped_17s_cex :
    (wait_all_stopped [⟨"a", none⟩]).1 = 171 ∧ 170 < 171 := by
  constructor
  · decide
  · decide

/-- Claim C3 as amended: the shutdown protocol is bounded by 17.1 s: the
polling loop (one tick per 100 ms) exits at the first tick with no
not-stopped child or at tick 151 at the latest; every still-not-stopped
child is then hard-killed, and exactly when some child was, the SIGKILL
notice is printed and 2 s elapse before return, for a total of at most
171 ticks; each `close()` resend happens when more than 1 s has passed
since the last one — at positive multiples of 1.1 s — and targets exactly
the then-not-stopped children. -/
theorem wait_all_stopped_spec (children : List ShutdownChild) :
    (wait_all_stopped children).1 ≤ 171 ∧
    (∃ te, te ≤ 151 ∧
      (children.filter (fun c => notStoppedAt c te) = [] ∨ te = 151) ∧
      (wait_all_stopped children).2.2.1 =
        (children.filter (fun c => notStoppedAt c te)).map (fun c => c.name) ∧
      ((wait_all_stopped children).2.2.2 = true ↔
        children.filter (fun c => notStoppedAt c te) ≠ []) ∧
      (wait_all_stopped children).1 =
        (if children.filter (fun c => notStoppedAt c te) = [] then te else te + 20) ∧
      (∀ b ∈ (wait_all_stopped children).2.1,
        b.1 % 11 = 0 ∧ 0 < b.1 ∧ b.1 < te ∧
        b.2 = (children.filter (fun c => notStoppedAt c (b.1 + 1))).map (fun c => c.name))) := by
  have hle := wait_loop_le children 152 0 0 (by omega)
  have hexit := wait_loop_exit children 152 0 0 (by omega) (by omega)
  have hbatches := wait_loop_batches children 152 0 0 (by omega) (by omega) (by omega)
  constructor
  · unfold wait_all_stopped
    by_cases hs : children.filter (fun c => notStoppedAt c (wait_loop children 152 0 0).1) = []
    · rw [if_pos hs]
      omega
    · rw [if_neg hs]
      simp only []
      omega
  · refine ⟨(wait_loop children 152 0 0).1, hle, hexit, ?_, ?_, ?_, ?_⟩
    · unfold wait_all_stopped
      by_cases hs : children.filter (fun c => notStoppedAt c (wait_loop children 152 0 0).1) = []
      · rw [if_pos hs]
        simp [hs]
      · rw [if_neg hs]
    · unfold wait_all_stopped
      by_cases hs : children.filter (fun c => notStoppedAt c (wait_loop children 152 0 0).1) = []
      · rw [if_pos hs]
        simp [hs]
      · rw [if_neg hs]
        simp [hs]
    · unfold wait_all_stopped
      by_cases hs : children.filter (fun c => notStoppedAt c (wait_loop children 152 0 0).1) = []
      · rw [if_pos hs, if_pos hs]
      · rw [if_neg hs, if_neg hs]
    · intro b hb
      have hb' : b ∈ (wait_loop children 152 0 0).2 := by
        unfold wait_all_stopped at hb
        by_cases hs : children.filter
            (fun c => notStoppedAt c (wait_loop children 152 0 0).1) = []
        · rw [if_pos hs] at hb
          exact hb
        · rw [if_neg hs] at hb
          exact hb
      exact hbatches b hb'

/-- Witness for the amended C3 at a concrete child that stops at tick 5:
the total elapsed time is within the 17.1 s budget. -/
theorem wait_all_stopped_spec_witness :
    (wait_all_stopped [⟨"b", some 5⟩]).1 ≤ 171 :=
  (wait_all_stopped_spec [⟨"b", some 5⟩]).1
